import Mathlib

/-
Verification of the minituna_v1 hyperparameter-optimization core
(src/src/minituna_v1.rs and src/src/example_quadratic.rs), as a shallow
embedding in Lean 4.

Modelling conventions:
- Rust f64 values are modelled as rationals (no claim here depends on
  floating-point rounding or NaN behaviour).
- Rust Result plus the possibility of a runtime panic are modelled by the
  three-way outcome type Res: ok, err (a recoverable TrialError carrying its
  message string), panic (an unrecoverable abort carrying its message).
- HashMap String f64 is modelled as an association list with insert-replace
  semantics (lookup-based claims only; iteration order is never used).
- Mutation of self in Rust methods is modelled by returning the updated value.
- The external rand crate (StdRng, gen_range) is not repository code and is
  modelled from the spec, see rngNext below.
-/

namespace Minituna

/-- Outcome of a fallible Rust computation: ok, a recoverable Err carrying the
TrialError message, or a runtime panic carrying the panic message. -/
inductive Res (α : Type) where
  | ok : α → Res α
  | err : String → Res α
  | panic : String → Res α
deriving DecidableEq

/-- TrialState from minituna_v1.rs. -/
inductive TrialState where
  | Running
  | Completed
  | Failed
deriving DecidableEq

/-- FrozenTrial from minituna_v1.rs: trial_id, state, optional value, params
map (HashMap modelled as an association list with insert-replace). -/
structure FrozenTrial where
  trial_id : ℕ
  state : TrialState
  value : Option ℚ
  params : List (String × ℚ)
deriving DecidableEq

/-- FrozenTrial::new. -/
def FrozenTrial.new (trial_id : ℕ) : FrozenTrial :=
  { trial_id := trial_id, state := TrialState.Running, value := none, params := [] }

/-- FrozenTrial::is_finished: true when state differs from Running. -/
def FrozenTrial.is_finished (t : FrozenTrial) : Bool :=
  decide (t.state ≠ TrialState.Running)

/-- HashMap::insert on the association-list model: replace the binding of the
key when present, otherwise append it. -/
def insertParam : List (String × ℚ) → String → ℚ → List (String × ℚ)
  | [], k, v => [(k, v)]
  | (k1, v1) :: rest, k, v =>
      if k1 = k then (k, v) :: rest else (k1, v1) :: insertParam rest k v

/-- Storage from minituna_v1.rs: the ordered list of trials. -/
structure Storage where
  trials : List FrozenTrial
deriving DecidableEq

/-- Storage::create_new_trial: appends a fresh Running trial whose id is the
current length; returns the id together with the updated storage. -/
def Storage.create_new_trial (s : Storage) : ℕ × Storage :=
  let trial_id := s.trials.length
  (trial_id, ⟨s.trials ++ [FrozenTrial.new trial_id]⟩)

/-- Storage::get_trial: clone of the trial at the index, when in range. -/
def Storage.get_trial (s : Storage) (trial_id : ℕ) : Option FrozenTrial :=
  s.trials[trial_id]?

/-- The order on Option values used by Rust min_by_key over
Option OrderedFloat: None sorts below every Some (strict version). -/
def valLT : Option ℚ → Option ℚ → Bool
  | none, none => false
  | none, some _ => true
  | some _, none => false
  | some a, some b => decide (a < b)

/-- The matching non-strict order on Option values. -/
def valLE : Option ℚ → Option ℚ → Bool
  | none, _ => true
  | some _, none => false
  | some a, some b => decide (a ≤ b)

/-- One step of Iterator::min_by_key over the value field: replace the
current minimum only on a strictly smaller key, so the first minimum wins,
matching the documented contract of Rust min_by_key. -/
def minStep (acc : Option FrozenTrial) (t : FrozenTrial) : Option FrozenTrial :=
  match acc with
  | none => some t
  | some u => if valLT t.value u.value then some t else some u

/-- Iterator::min_by_key over the value field, as the left fold of minStep. -/
def minByValue (trials : List FrozenTrial) : Option FrozenTrial :=
  trials.foldl minStep none

/-- Storage::get_best_trial: filter to Completed trials, take the one with
minimal value under min_by_key. -/
def Storage.get_best_trial (s : Storage) : Option FrozenTrial :=
  minByValue (s.trials.filter (fun t => decide (t.state = TrialState.Completed)))

/-- Storage::set_trial_value. The guard is translated exactly as written in
the source: when the trial is present and NOT finished the call returns
Err("cannot update finished trial"); when the trial is present and finished
the value is overwritten; when the trial is absent the call is an Ok no-op. -/
def Storage.set_trial_value (s : Storage) (trial_id : ℕ) (value : ℚ) : Res Storage :=
  match s.trials[trial_id]? with
  | none => Res.ok s
  | some t =>
      if ¬ t.is_finished then Res.err ("cannot update finished trial")
      else Res.ok ⟨s.trials.set trial_id { t with value := some value }⟩

/-- Storage::set_trial_state, same guard shape as set_trial_value. -/
def Storage.set_trial_state (s : Storage) (trial_id : ℕ) (state : TrialState) : Res Storage :=
  match s.trials[trial_id]? with
  | none => Res.ok s
  | some t =>
      if ¬ t.is_finished then Res.err ("cannot update finished trial")
      else Res.ok ⟨s.trials.set trial_id { t with state := state }⟩

/-- Storage::set_trial_param, same guard shape as set_trial_value. -/
def Storage.set_trial_param (s : Storage) (trial_id : ℕ) (name : String) (value : ℚ) :
    Res Storage :=
  match s.trials[trial_id]? with
  | none => Res.ok s
  | some t =>
      if ¬ t.is_finished then Res.err ("cannot update finished trial")
      else Res.ok ⟨s.trials.set trial_id { t with params := insertParam t.params name value }⟩

/-- Modelled from the spec: the external rand crate generator (StdRng) is not
repository code; the spec only requires a deterministic seeded generator whose
state advances on every draw. One step of the generator state, a 64-bit
linear congruential step. -/
def rngNext (state : ℕ) : ℕ :=
  (6364136223846793005 * state + 1442695040888963407) % 2 ^ 64

/-- Modelled from the spec: the fraction in [0, 1) extracted from one
generator step. -/
def rngFraction (state : ℕ) : ℚ :=
  (rngNext state : ℚ) / 2 ^ 64

/-- Modelled from the spec: rand gen_range(low, high) draws uniformly from
[low, high) and panics when low >= high (the behaviour of
Uniform::sample_single in the rand crate). Returns the draw and the advanced
generator state. -/
def genRange (state : ℕ) (low high : ℚ) : Res (ℚ × ℕ) :=
  if low < high then Res.ok (low + rngFraction state * (high - low), rngNext state)
  else Res.panic ("Uniform::sample_single called with low >= high")

/-- Sampler from minituna_v1.rs: holds the generator state. -/
structure Sampler where
  rng : ℕ
deriving DecidableEq

/-- Sampler::new: seed the generator from a 64-bit seed. -/
def Sampler.new (seed : ℕ) : Sampler :=
  ⟨seed % 2 ^ 64⟩

/-- Sampler::sample_independent. The source asserts that the distribution map
contains the keys low and high: a missing key aborts via assert! (a panic),
not via a recoverable Err. The unused parameters _study, _trial and _name of
the source are omitted (they do not influence the result). -/
def Sampler.sample_independent (smp : Sampler) (distribution : List (String × ℚ)) :
    Res (ℚ × Sampler) :=
  match distribution.lookup ("low") with
  | none => Res.panic ("assertion failed: distribution.get(low).is_some()")
  | some low =>
      match distribution.lookup ("high") with
      | none => Res.panic ("assertion failed: distribution.get(high).is_some()")
      | some high =>
          match genRange smp.rng low high with
          | Res.ok (v, st) => Res.ok (v, ⟨st⟩)
          | Res.err e => Res.err e
          | Res.panic m => Res.panic m

/-- Study from minituna_v1.rs: one Storage and one Sampler. -/
structure Study where
  storage : Storage
  sampler : Sampler
deriving DecidableEq

/-- Trial from minituna_v1.rs. The Rust constructor stores
RefCell::new(study.clone()): the Trial owns a full COPY of the Study (its
Storage and its Sampler), not a shared handle to it. -/
structure Trial where
  study : Study
  trial_id : ℕ
  state : TrialState
deriving DecidableEq

/-- Trial::new: clones the given study into the new trial handle. -/
def Trial.new (trial_id : ℕ) (study : Study) : Trial :=
  { study := study, trial_id := trial_id, state := TrialState.Running }

/-- Trial::suggest_uniform, translated together with the dynamic RefCell
borrow discipline of the source. After get_trial succeeds, the source
evaluates

  self.study.borrow_mut().sampler.sample_independent(&self.study.borrow(), ...)

Rust evaluates the receiver of a method call before its arguments, and the
temporary RefMut produced by borrow_mut() lives until the end of the
statement; the argument expression self.study.borrow() therefore runs while
the same RefCell is mutably borrowed, and RefCell::borrow panics with
"already mutably borrowed". So whenever the trial id is found, the call
aborts before the sampler is consulted and before set_trial_param runs; the
remainder of the source function (the draw and its persistence) is
unreachable. When the trial id is absent, the source returns the
Err("Not found specific trial") branch. -/
def Trial.suggest_uniform (t : Trial) (name : String) (low high : ℚ) : Res (ℚ × Trial) :=
  match t.study.storage.get_trial t.trial_id with
  | some _trial =>
      let _distribution : List (String × ℚ) :=
        insertParam (insertParam [] ("low") low) ("high") high
      let _name := name
      Res.panic ("already mutably borrowed")
  | none => Res.err ("Not found specific trial")

/-- The Objective trait: arbitrary user code receiving the Trial handle and
producing a score, a recoverable error, or a panic. -/
def Objective : Type :=
  Trial → Res ℚ

/-- Quadratic::objective from example_quadratic.rs: suggest x in [0, 10),
then y in [0, 10) on the same trial handle (whose inner cloned study state is
threaded through on success; the error branches of suggest_uniform do not
mutate it), then return (x - 3)^2 + (y - 5)^2. A panic in either suggestion
propagates immediately; otherwise the source matches on the pair of Results
with the arm order (Ok, Ok), (_, Err(ey)), (Err(ex), _). -/
def quadratic : Objective := fun trial =>
  match trial.suggest_uniform ("x") 0 10 with
  | Res.panic m => Res.panic m
  | Res.err ex =>
      match trial.suggest_uniform ("y") 0 10 with
      | Res.panic m => Res.panic m
      | Res.err ey => Res.err ey
      | Res.ok _ => Res.err ex
  | Res.ok (x, trial1) =>
      match trial1.suggest_uniform ("y") 0 10 with
      | Res.panic m => Res.panic m
      | Res.err ey => Res.err ey
      | Res.ok (y, _) => Res.ok ((x - 3) ^ 2 + (y - 5) ^ 2)

/-- Whether a run of optimize returned normally or aborted in a panic. -/
inductive RunOutcome where
  | normal
  | panicked : String → RunOutcome
deriving DecidableEq

/-- The state left by a run of Study::optimize: the Study, the list of
(trial_id, message) failure reports printed by eprintln (the observability
channel), and whether the run returned or panicked. On a panic the Study
field records the state at the moment of the abort. -/
structure RunResult where
  study : Study
  log : List (ℕ × String)
  outcome : RunOutcome
deriving DecidableEq

/-- The loop body of Study::optimize, iterated n times. Each iteration:
create a new trial id in the REAL storage, construct a Trial around a CLONE
of the current study, call the objective, then chain
set_trial_value and set_trial_state(Completed) on the real storage with
and_then; an Err from the objective or from either setter is reported as
(trial_id, message) on the log and the loop continues; a panic aborts the
whole run. -/
def optimizeLoop (objective : Objective) : ℕ → Study → List (ℕ × String) → RunResult
  | 0, s, log => { study := s, log := log, outcome := RunOutcome.normal }
  | n + 1, s, log =>
      let created := s.storage.create_new_trial
      let trial_id := created.1
      let s1 : Study := { s with storage := created.2 }
      let trial := Trial.new trial_id s1
      match objective trial with
      | Res.panic m => { study := s1, log := log, outcome := RunOutcome.panicked m }
      | Res.err e => optimizeLoop objective n s1 (log ++ [(trial_id, e)])
      | Res.ok v =>
          match s1.storage.set_trial_value trial_id v with
          | Res.panic m => { study := s1, log := log, outcome := RunOutcome.panicked m }
          | Res.err e => optimizeLoop objective n s1 (log ++ [(trial_id, e)])
          | Res.ok storage2 =>
              match storage2.set_trial_state trial_id TrialState.Completed with
              | Res.panic m =>
                  { study := { s1 with storage := storage2 }, log := log,
                    outcome := RunOutcome.panicked m }
              | Res.err e =>
                  optimizeLoop objective n { s1 with storage := storage2 }
                    (log ++ [(trial_id, e)])
              | Res.ok storage3 =>
                  optimizeLoop objective n { s1 with storage := storage3 } log

/-- Study::optimize. -/
def Study.optimize (s : Study) (objective : Objective) (n_trials : ℕ) : RunResult :=
  optimizeLoop objective n_trials s []

/-- Study::best_trial: delegates to Storage::get_best_trial. -/
def Study.best_trial (s : Study) : Option FrozenTrial :=
  s.storage.get_best_trial

/-- The sequence of outcomes produced by issuing a list of
sample_independent calls against one sampler, threading its state; a panic
aborts the sequence. -/
def sampleSeq (smp : Sampler) : List (List (String × ℚ)) → List (Res ℚ)
  | [] => []
  | d :: ds =>
      match smp.sample_independent d with
      | Res.ok (v, smp1) => Res.ok v :: sampleSeq smp1 ds
      | Res.err e => Res.err e :: sampleSeq smp ds
      | Res.panic m => [Res.panic m]

/-- The storages reachable from an empty storage through the public
operations: create_new_trial, the three setters (on their Ok results), and
whole runs of Study::optimize with an arbitrary objective (including runs
that abort in a panic: the storage at the abort point is reachable).
Trial::suggest_uniform acts only on the cloned study inside a Trial handle
and never touches the storage owned by the Study, so it induces no
transition here. -/
inductive ReachableStorage : Storage → Prop
  | init : ReachableStorage ⟨[]⟩
  | create (s : Storage) :
      ReachableStorage s → ReachableStorage s.create_new_trial.2
  | set_value (s s' : Storage) (trial_id : ℕ) (v : ℚ) :
      ReachableStorage s → s.set_trial_value trial_id v = Res.ok s' →
      ReachableStorage s'
  | set_state (s s' : Storage) (trial_id : ℕ) (st : TrialState) :
      ReachableStorage s → s.set_trial_state trial_id st = Res.ok s' →
      ReachableStorage s'
  | set_param (s s' : Storage) (trial_id : ℕ) (name : String) (v : ℚ) :
      ReachableStorage s → s.set_trial_param trial_id name v = Res.ok s' →
      ReachableStorage s'
  | opt (s : Storage) (smp : Sampler) (objective : Objective) (n : ℕ) :
      ReachableStorage s →
      ReachableStorage ((Study.optimize ⟨s, smp⟩ objective n).study.storage)

/-- A Study over an empty storage with the sampler seeded at 42. -/
def study42 : Study :=
  ⟨⟨[]⟩, Sampler.new 42⟩

/-- A storage holding exactly one freshly created (Running) trial. -/
def runningStore : Storage :=
  ⟨[FrozenTrial.new 0]⟩

/-- A storage holding exactly one Completed trial with value 1. -/
def completedStore : Storage :=
  ⟨[⟨0, TrialState.Completed, some 1, []⟩]⟩

/-- A concrete call sequence for the determinism claim. -/
def callsW : List (List (String × ℚ)) :=
  [[(("low"), 0), (("high"), 10)], [(("low"), 0), (("high"), 10)]]

/-- A storage with two Completed trials tying on the minimum value and one
Running trial, for the C4 witness. -/
def bestStore : Storage :=
  ⟨[⟨0, TrialState.Completed, some 5, []⟩, ⟨1, TrialState.Completed, some 5, []⟩,
    ⟨2, TrialState.Running, none, []⟩]⟩

/-- A Study over an empty storage with the sampler seeded at 0, for the C8
witness. -/
def study0 : Study :=
  ⟨⟨[]⟩, Sampler.new 0⟩

/-- An objective that always fails with the message boom. -/
def objErr : Objective := fun _ => Res.err ("boom")

/-- Every trial recorded in the storage is still in state Running. -/
def allRunning (s : Storage) : Prop :=
  ∀ t ∈ s.trials, t.state = TrialState.Running

theorem allRunning_create {s : Storage} (h : allRunning s) :
    allRunning s.create_new_trial.2 := by
  intro t ht
  simp only [Storage.create_new_trial, List.mem_append, List.mem_singleton] at ht
  rcases ht with ht | rfl
  · exact h t ht
  · rfl

theorem set_trial_value_ok_of_allRunning {s s' : Storage} {trial_id : ℕ} {v : ℚ}
    (h : allRunning s) (hok : s.set_trial_value trial_id v = Res.ok s') : s' = s := by
  unfold Storage.set_trial_value at hok
  cases hg : s.trials[trial_id]? with
  | none =>
      rw [hg] at hok
      cases hok
      rfl
  | some t =>
      rw [hg] at hok
      have ht : t ∈ s.trials := List.getElem?_mem hg
      have hfin : t.is_finished = false := by
        simp [FrozenTrial.is_finished, h t ht]
      simp [hfin] at hok

theorem set_trial_state_ok_of_allRunning {s s' : Storage} {trial_id : ℕ} {st : TrialState}
    (h : allRunning s) (hok : s.set_trial_state trial_id st = Res.ok s') : s' = s := by
  unfold Storage.set_trial_state at hok
  cases hg : s.trials[trial_id]? with
  | none =>
      rw [hg] at hok
      cases hok
      rfl
  | some t =>
      rw [hg] at hok
      have ht : t ∈ s.trials := List.getElem?_mem hg
      have hfin : t.is_finished = false := by
        simp [FrozenTrial.is_finished, h t ht]
      simp [hfin] at hok

theorem set_trial_param_ok_of_allRunning {s s' : Storage} {trial_id : ℕ} {name : String}
    {v : ℚ} (h : allRunning s) (hok : s.set_trial_param trial_id name v = Res.ok s') :
    s' = s := by
  unfold Storage.set_trial_param at hok
  cases hg : s.trials[trial_id]? with
  | none =>
      rw [hg] at hok
      cases hok
      rfl
  | some t =>
      rw [hg] at hok
      have ht : t ∈ s.trials := List.getElem?_mem hg
      have hfin : t.is_finished = false := by
        simp [FrozenTrial.is_finished, h t ht]
      simp [hfin] at hok

theorem allRunning_optimizeLoop (objective : Objective) (n : ℕ) :
    ∀ (s : Study) (log : List (ℕ × String)), allRunning s.storage →
      allRunning (optimizeLoop objective n s log).study.storage := by
  induction n with
  | zero =>
      intro s log h
      exact h
  | succ n ih =>
      intro s log h
      have h1 : allRunning s.storage.create_new_trial.2 := allRunning_create h
      rw [optimizeLoop]
      dsimp only
      split
      · exact h1
      · exact ih _ _ h1
      · split
        · exact h1
        · exact ih _ _ h1
        · rename_i storage2 hv
          have h2 : storage2 = s.storage.create_new_trial.2 :=
            set_trial_value_ok_of_allRunning h1 hv
          subst h2
          split
          · exact h1
          · exact ih _ _ h1
          · rename_i storage3 hst
            have h3 : storage3 = s.storage.create_new_trial.2 :=
              set_trial_state_ok_of_allRunning h1 hst
            subst h3
            exact ih _ _ h1

theorem get_best_trial_none_of_allRunning {s : Storage} (h : allRunning s) :
    s.get_best_trial = none := by
  unfold Storage.get_best_trial
  have hnil : s.trials.filter (fun t => decide (t.state = TrialState.Completed)) = [] := by
    apply List.filter_eq_nil_iff.mpr
    intro t ht
    simp [h t ht]
  rw [hnil]
  rfl

theorem allRunning_of_reachable {s : Storage} (h : ReachableStorage s) : allRunning s := by
  induction h with
  | init =>
      intro t ht
      cases ht
  | create s _ ih => exact allRunning_create ih
  | set_value s s' trial_id v _ hok ih =>
      rw [set_trial_value_ok_of_allRunning ih hok]
      exact ih
  | set_state s s' trial_id st _ hok ih =>
      rw [set_trial_state_ok_of_allRunning ih hok]
      exact ih
  | set_param s s' trial_id name v _ hok ih =>
      rw [set_trial_param_ok_of_allRunning ih hok]
      exact ih
  | opt s smp objective n _ ih => exact allRunning_optimizeLoop objective n ⟨s, smp⟩ [] ih

theorem valLE_refl (a : Option ℚ) : valLE a a = true := by
  cases a with
  | none => rfl
  | some q => simp [valLE]

theorem valLE_trans {a b c : Option ℚ} (h1 : valLE a b = true) (h2 : valLE b c = true) :
    valLE a c = true := by
  cases a with
  | none => rfl
  | some qa =>
      cases b with
      | none => exact absurd h1 (by simp [valLE])
      | some qb =>
          cases c with
          | none => exact absurd h2 (by simp [valLE])
          | some qc =>
              simp only [valLE, decide_eq_true_eq] at h1 h2 ⊢
              exact le_trans h1 h2

theorem valLE_of_valLT {a b : Option ℚ} (h : valLT a b = true) : valLE a b = true := by
  cases a with
  | none => rfl
  | some qa =>
      cases b with
      | none => exact absurd h (by simp [valLT])
      | some qb =>
          simp only [valLT, decide_eq_true_eq] at h
          simp only [valLE, decide_eq_true_eq]
          exact le_of_lt h

theorem valLE_of_valLT_eq_false {a b : Option ℚ} (h : valLT a b = false) :
    valLE b a = true := by
  cases a with
  | none =>
      cases b with
      | none => rfl
      | some qb => exact absurd h (by simp [valLT])
  | some qa =>
      cases b with
      | none => rfl
      | some qb =>
          simp only [valLT, decide_eq_false_iff_not, not_lt] at h
          simp only [valLE, decide_eq_true_eq]
          exact h

theorem valLT_of_valLE_of_valLT {a b c : Option ℚ} (h1 : valLE a b = true)
    (h2 : valLT b c = true) : valLT a c = true := by
  cases b with
  | none =>
      cases a with
      | none => exact h2
      | some qa => exact absurd h1 (by simp [valLE])
  | some qb =>
      cases c with
      | none => exact absurd h2 (by simp [valLT])
      | some qc =>
          cases a with
          | none => rfl
          | some qa =>
              simp only [valLE, decide_eq_true_eq] at h1
              simp only [valLT, decide_eq_true_eq] at h2 ⊢
              exact lt_of_le_of_lt h1 h2

theorem not_valLE_and_valLT {a b : Option ℚ} (h1 : valLE a b = true)
    (h2 : valLT b a = true) : False := by
  cases a with
  | none => cases b <;> simp [valLT] at h2
  | some qa =>
      cases b with
      | none => simp [valLE] at h1
      | some qb =>
          simp only [valLE, decide_eq_true_eq] at h1
          simp only [valLT, decide_eq_true_eq] at h2
          exact absurd h1 (not_le_of_lt h2)

/-- Characterization of the min_by_key fold: emptiness, membership and
minimality of the result, relative to an arbitrary accumulator. -/
theorem foldl_minStep_spec (l : List FrozenTrial) :
    ∀ acc : Option FrozenTrial,
      (l.foldl minStep acc = none ↔ (acc = none ∧ l = [])) ∧
      (∀ b, l.foldl minStep acc = some b →
        (acc = some b ∨ b ∈ l) ∧
        (∀ t ∈ l, valLE b.value t.value = true) ∧
        (∀ u, acc = some u → valLE b.value u.value = true)) := by
  induction l with
  | nil =>
      intro acc
      constructor
      · simp
      · intro b hb
        refine ⟨Or.inl hb, by simp, ?_⟩
        intro u hu
        rw [hu] at hb
        cases hb
        exact valLE_refl _
  | cons x xs ih =>
      intro acc
      constructor
      · constructor
        · intro h
          rcases ((ih (minStep acc x)).1.mp h) with ⟨h1, _⟩
          cases acc with
          | none => cases h1
          | some u => simp [minStep] at h1; split at h1 <;> cases h1
        · rintro ⟨-, h⟩
          cases h
      · intro b hb
        have hspec := (ih (minStep acc x)).2 b hb
        rcases hspec with ⟨hmem, hmin, hacc⟩
        cases acc with
        | none =>
            simp only [minStep] at hmem hacc
            have hbx : valLE b.value x.value = true := hacc x rfl
            constructor
            · rcases hmem with h | h
              · cases h; exact Or.inr (List.mem_cons_self _ _)
              · exact Or.inr (List.mem_cons_of_mem _ h)
            · refine ⟨?_, ?_⟩
              · intro t ht
                rcases List.mem_cons.mp ht with rfl | ht
                · exact hbx
                · exact hmin t ht
              · intro u hu
                cases hu
        | some u =>
            simp only [minStep] at hmem hacc
            by_cases hlt : valLT x.value u.value = true
            · rw [if_pos hlt] at hmem hacc
              have hbx : valLE b.value x.value = true := hacc x rfl
              constructor
              · rcases hmem with h | h
                · cases h; exact Or.inr (List.mem_cons_self _ _)
                · exact Or.inr (List.mem_cons_of_mem _ h)
              · refine ⟨?_, ?_⟩
                · intro t ht
                  rcases List.mem_cons.mp ht with rfl | ht
                  · exact hbx
                  · exact hmin t ht
                · intro u' hu'
                  cases hu'
                  exact valLE_trans hbx (valLE_of_valLT hlt)
            · rw [if_neg hlt] at hmem hacc
              have hbu : valLE b.value u.value = true := hacc u rfl
              have hux : valLE u.value x.value = true :=
                valLE_of_valLT_eq_false (Bool.eq_false_iff.mpr hlt ▸ rfl)
              constructor
              · rcases hmem with h | h
                · exact Or.inl h
                · exact Or.inr (List.mem_cons_of_mem _ h)
              · refine ⟨?_, ?_⟩
                · intro t ht
                  rcases List.mem_cons.mp ht with rfl | ht
                  · exact valLE_trans hbu hux
                  · exact hmin t ht
                · intro u' hu'
                  cases hu'
                  exact hbu

/-- Tie-breaking of the min_by_key fold: on a list with strictly increasing
trial ids, the result has the least trial id among all entries whose value is
at most its own (in particular among exact value ties). -/
theorem foldl_minStep_tie (l : List FrozenTrial) :
    ∀ acc : Option FrozenTrial,
      l.Pairwise (fun a b => a.trial_id < b.trial_id) →
      (∀ u, acc = some u → ∀ t ∈ l, u.trial_id < t.trial_id) →
      ∀ b, l.foldl minStep acc = some b →
        ∀ t, (acc = some t ∨ t ∈ l) → valLE t.value b.value = true →
          b.trial_id ≤ t.trial_id := by
  induction l with
  | nil =>
      intro acc _ _ b hb t ht hle
      rcases ht with ht | ht
      · rw [ht] at hb
        cases hb
        exact le_refl _
      · cases ht
  | cons x xs ih =>
      intro acc hpair hacc b hb t ht hle
      have hpairx : ∀ t' ∈ xs, x.trial_id < t'.trial_id :=
        (List.pairwise_cons.mp hpair).1
      have hpairxs : xs.Pairwise (fun a b => a.trial_id < b.trial_id) :=
        (List.pairwise_cons.mp hpair).2
      cases acc with
      | none =>
          simp only [List.foldl_cons, minStep] at hb
          have hih := ih (some x) hpairxs (by rintro u hu; cases hu; exact hpairx) b hb
          rcases ht with ht | ht
          · cases ht
          · rcases List.mem_cons.mp ht with rfl | ht
            · exact hih t (Or.inl rfl) hle
            · exact hih t (Or.inr ht) hle
      | some u =>
          simp only [List.foldl_cons, minStep] at hb
          by_cases hlt : valLT x.value u.value = true
          · rw [if_pos hlt] at hb
            have haccx : ∀ u', some x = some u' → ∀ t' ∈ xs, u'.trial_id < t'.trial_id := by
              rintro u' hu'; cases hu'; exact hpairx
            have hih := ih (some x) hpairxs haccx b hb
            have hspec := (foldl_minStep_spec xs (some x)).2 b hb
            have hbx : valLE b.value x.value = true := hspec.2.2 x rfl
            rcases ht with ht | ht
            · -- t = u, the replaced accumulator: value-wise impossible
              cases ht
              exact (not_valLE_and_valLT hle (valLT_of_valLE_of_valLT hbx hlt)).elim
            · rcases List.mem_cons.mp ht with rfl | ht
              · exact hih t (Or.inl rfl) hle
              · exact hih t (Or.inr ht) hle
          · rw [if_neg hlt] at hb
            have hux : valLE u.value x.value = true :=
              valLE_of_valLT_eq_false (Bool.eq_false_iff.mpr hlt ▸ rfl)
            have haccu : ∀ u', some u = some u' → ∀ t' ∈ xs, u'.trial_id < t'.trial_id := by
              rintro u' hu' t' ht'
              cases hu'
              exact hacc u rfl t' (List.mem_cons_of_mem _ ht')
            have hih := ih (some u) hpairxs haccu b hb
            rcases ht with ht | ht
            · cases ht
              exact hih t (Or.inl rfl) hle
            · rcases List.mem_cons.mp ht with rfl | ht
              · -- t = x, which the accumulator u beat or tied: go through u
                have hub : valLE u.value b.value = true := valLE_trans hux hle
                have hbu : b.trial_id ≤ u.trial_id := hih u (Or.inl rfl) hub
                have hux_id : u.trial_id < t.trial_id :=
                  hacc u rfl t (List.mem_cons_self _ _)
                exact le_of_lt (lt_of_le_of_lt hbu hux_id)
              · exact hih t (Or.inr ht) hle

/-- C4: Storage::get_best_trial returns none exactly when no stored trial is
Completed; otherwise, assuming trial ids strictly increase along the storage
list (the creation-order invariant) and every Completed trial carries a
value, it returns a Completed stored trial of minimum value, and among
Completed trials tying on that value it has the lowest trial_id. -/
theorem c4_get_best_trial (s : Storage)
    (hids : s.trials.Pairwise (fun a b => a.trial_id < b.trial_id))
    (hvals : ∀ t ∈ s.trials, t.state = TrialState.Completed → t.value.isSome = true) :
    (s.get_best_trial = none ↔ ∀ t ∈ s.trials, t.state ≠ TrialState.Completed) ∧
    (∀ b, s.get_best_trial = some b →
      b ∈ s.trials ∧ b.state = TrialState.Completed ∧
      (∃ q, b.value = some q ∧
        ∀ t ∈ s.trials, t.state = TrialState.Completed →
          ∀ qt, t.value = some qt → q ≤ qt) ∧
      (∀ t ∈ s.trials, t.state = TrialState.Completed → t.value = b.value →
        b.trial_id ≤ t.trial_id)) := by
  set l := s.trials.filter (fun t => decide (t.state = TrialState.Completed)) with hl
  have hmeml : ∀ t, t ∈ l ↔ t ∈ s.trials ∧ t.state = TrialState.Completed := by
    intro t
    rw [hl, List.mem_filter]
    simp
  constructor
  · unfold Storage.get_best_trial minByValue
    rw [← hl]
    constructor
    · intro h t ht hc
      have hnil : l = [] := ((foldl_minStep_spec l none).1.mp h).2
      have htl : t ∈ l := (hmeml t).mpr ⟨ht, hc⟩
      rw [hnil] at htl
      cases htl
    · intro h
      have hnil : l = [] := by
        rw [hl]
        apply List.filter_eq_nil_iff.mpr
        intro t ht
        simp [h t ht]
      rw [hnil]
      rfl
  · intro b hb
    unfold Storage.get_best_trial minByValue at hb
    rw [← hl] at hb
    have hspec := (foldl_minStep_spec l none).2 b hb
    rcases hspec with ⟨hmem, hmin, -⟩
    have hbl : b ∈ l := by
      rcases hmem with h | h
      · cases h
      · exact h
    have hbs := (hmeml b).mp hbl
    refine ⟨hbs.1, hbs.2, ?_, ?_⟩
    · have hq : b.value.isSome = true := hvals b hbs.1 hbs.2
      obtain ⟨q, hqq⟩ := Option.isSome_iff_exists.mp hq
      refine ⟨q, hqq, ?_⟩
      intro t ht hc qt hqt
      have hle : valLE b.value t.value = true := hmin t ((hmeml t).mpr ⟨ht, hc⟩)
      rw [hqq, hqt] at hle
      simpa [valLE] using hle
    · intro t ht hc hveq
      have hpl : l.Pairwise (fun a b => a.trial_id < b.trial_id) := hids.filter _
      have htie := foldl_minStep_tie l none hpl (by rintro u hu; cases hu) b hb
      apply htie t (Or.inr ((hmeml t).mpr ⟨ht, hc⟩))
      rw [hveq]
      exact valLE_refl _

/-- C4, witness at a concrete storage. -/
theorem c4_get_best_trial_witness :
    (bestStore.get_best_trial = none ↔
      ∀ t ∈ bestStore.trials, t.state ≠ TrialState.Completed) ∧
    (∀ b, bestStore.get_best_trial = some b →
      b ∈ bestStore.trials ∧ b.state = TrialState.Completed ∧
      (∃ q, b.value = some q ∧
        ∀ t ∈ bestStore.trials, t.state = TrialState.Completed →
          ∀ qt, t.value = some qt → q ≤ qt) ∧
      (∀ t ∈ bestStore.trials, t.state = TrialState.Completed → t.value = b.value →
        b.trial_id ≤ t.trial_id)) :=
  c4_get_best_trial bestStore (by decide) (by decide)

/-- C1: the claim says the setters reject writes to a Completed or Failed
trial and succeed on a Running trial. Evaluating the code at those inputs
shows the opposite: every setter rejects the Running trial with the message
"cannot update finished trial", and every setter accepts and mutates the
Completed trial. -/
theorem c1_setters_guard_inverted :
    runningStore.set_trial_value 0 2 = Res.err ("cannot update finished trial") ∧
    runningStore.set_trial_state 0 TrialState.Completed
      = Res.err ("cannot update finished trial") ∧
    runningStore.set_trial_param 0 ("x") 2 = Res.err ("cannot update finished trial") ∧
    completedStore.set_trial_value 0 2
      = Res.ok ⟨[⟨0, TrialState.Completed, some 2, []⟩]⟩ ∧
    completedStore.set_trial_state 0 TrialState.Failed
      = Res.ok ⟨[⟨0, TrialState.Failed, some 1, []⟩]⟩ ∧
    completedStore.set_trial_param 0 ("x") 2
      = Res.ok ⟨[⟨0, TrialState.Completed, some 1, [(("x"), 2)]⟩]⟩ := by
  decide

/-- C2: the claim says every Trial shares the Study sampler state and
storage. Evaluating one run of optimize with the quadratic objective shows
that the run aborts in the RefCell panic inside the first suggest_uniform,
the Study sampler is still in its freshly seeded state (no draw ever reached
it, since the Trial holds a clone and the call panics), and no parameter is
visible in the Study storage. -/
theorem c2_study_state_not_shared :
    (study42.optimize quadratic 1).study.sampler = Sampler.new 42 ∧
    (study42.optimize quadratic 1).study.storage.trials.map FrozenTrial.params = [[]] ∧
    (study42.optimize quadratic 1).outcome
      = RunOutcome.panicked ("already mutably borrowed") := by
  decide

/-- C3: the claim expects one Completed trial with two recorded params and
the quadratic value. Evaluating the run shows it aborts in the RefCell panic
during the first suggest_uniform, leaving one Running trial with no params
and no value, an empty failure log, and an unadvanced sampler. -/
theorem c3_quadratic_run_aborts :
    study42.optimize quadratic 1 =
      { study := ⟨⟨[FrozenTrial.new 0]⟩, Sampler.new 42⟩, log := [],
        outcome := RunOutcome.panicked ("already mutably borrowed") } := by
  decide

/-- C5: the claim says successful suggest_uniform calls return an in-range
value recorded in params, and absent trial ids give the not-found error.
Evaluating the code shows suggest_uniform can never return a value: whenever
the trial id exists it panics on the RefCell double borrow before sampling;
the not-found branch does return the expected error. -/
theorem c5_suggest_panics_or_not_found :
    (Trial.new 0 ⟨runningStore, Sampler.new 0⟩).suggest_uniform ("x") 0 10
      = Res.panic ("already mutably borrowed") ∧
    (Trial.new 5 ⟨runningStore, Sampler.new 0⟩).suggest_uniform ("x") 0 10
      = Res.err ("Not found specific trial") := by
  decide

/-- C6, counterexample: with the key low absent, sample_independent does not
return a recoverable error for any message; it aborts in the assert panic. -/
theorem c6_missing_low_is_not_an_err :
    ¬ ∃ e, (Sampler.new 0).sample_independent [(("high"), 10)] = Res.err e := by
  rintro ⟨e, he⟩
  rw [show (Sampler.new 0).sample_independent [(("high"), 10)]
        = Res.panic ("assertion failed: distribution.get(low).is_some()") from rfl] at he
  exact Res.noConfusion he

/-- C6, amended: when the distribution is missing the key low or the key
high, sample_independent aborts via a failed assertion (an unchecked panic),
not via a recoverable validation error. -/
theorem c6_missing_bound_panics (smp : Sampler) (distribution : List (String × ℚ))
    (h : distribution.lookup ("low") = none ∨ distribution.lookup ("high") = none) :
    ∃ m, smp.sample_independent distribution = Res.panic m := by
  unfold Sampler.sample_independent
  rcases h with h | h
  · rw [h]
    exact ⟨_, rfl⟩
  · cases hl : distribution.lookup ("low") with
    | none => exact ⟨_, rfl⟩
    | some low =>
        rw [h]
        exact ⟨_, rfl⟩

/-- C6, witness for the amended theorem at a concrete input. -/
theorem c6_missing_bound_panics_witness :
    ([(("high"), (10 : ℚ))].lookup ("low") = none ∨
      [(("high"), (10 : ℚ))].lookup ("high") = none) ∧
    ∃ m, (Sampler.new 0).sample_independent [(("high"), 10)] = Res.panic m :=
  ⟨Or.inl (by decide), c6_missing_bound_panics (Sampler.new 0) [(("high"), 10)]
    (Or.inl (by decide))⟩

/-- C7: the claim says optimize always leaves exactly N trials and never
aborts early. Evaluating optimize with the repository objective and
n_trials = 2 shows the run aborts in the RefCell panic during the first
trial, leaving only 1 trial in storage. -/
theorem c7_optimize_aborts_early :
    (study42.optimize quadratic 2).study.storage.trials.length = 1 ∧
    (study42.optimize quadratic 2).outcome
      = RunOutcome.panicked ("already mutably borrowed") := by
  decide

/-- C9: two samplers built from the same seed, given the same call sequence,
produce the same outcome sequence. In this pure embedding of the seeded
generator, determinism holds by construction. -/
theorem c9_sampler_deterministic (seed1 seed2 : ℕ)
    (calls1 calls2 : List (List (String × ℚ)))
    (hseed : seed1 = seed2) (hcalls : calls1 = calls2) :
    sampleSeq (Sampler.new seed1) calls1 = sampleSeq (Sampler.new seed2) calls2 := by
  rw [hseed, hcalls]

/-- C9, witness at a concrete seed and call sequence. -/
theorem c9_sampler_deterministic_witness :
    (42 : ℕ) = 42 ∧ callsW = callsW ∧
    sampleSeq (Sampler.new 42) callsW = sampleSeq (Sampler.new 42) callsW :=
  ⟨rfl, rfl, c9_sampler_deterministic 42 42 callsW callsW rfl rfl⟩

/-- C8: when the objective returns an Err, or set_trial_value or
set_trial_state returns an Err, the failing iteration of optimize does not
raise to the caller: it appends exactly the (trial_id, message) report to the
observability log and the run equals the loop continued on the remaining
iterations, with the storage exactly as it was at the point of failure (in
particular the trial is not moved to Failed; on the first two failure paths
it is still the freshly created Running trial). -/
theorem c8_optimize_downgrades_failures (objective : Objective) (n : ℕ) (s : Study)
    (log : List (ℕ × String)) (trial_id : ℕ) (storage1 : Storage)
    (hcreate : s.storage.create_new_trial = (trial_id, storage1)) :
    (∀ e, objective (Trial.new trial_id { s with storage := storage1 }) = Res.err e →
      optimizeLoop objective (n + 1) s log
        = optimizeLoop objective n { s with storage := storage1 } (log ++ [(trial_id, e)]) ∧
      storage1.get_trial trial_id = some (FrozenTrial.new trial_id)) ∧
    (∀ v e, objective (Trial.new trial_id { s with storage := storage1 }) = Res.ok v →
      storage1.set_trial_value trial_id v = Res.err e →
      optimizeLoop objective (n + 1) s log
        = optimizeLoop objective n { s with storage := storage1 } (log ++ [(trial_id, e)])) ∧
    (∀ v storage2 e,
      objective (Trial.new trial_id { s with storage := storage1 }) = Res.ok v →
      storage1.set_trial_value trial_id v = Res.ok storage2 →
      storage2.set_trial_state trial_id TrialState.Completed = Res.err e →
      optimizeLoop objective (n + 1) s log
        = optimizeLoop objective n { s with storage := storage2 } (log ++ [(trial_id, e)])) := by
  have hid : trial_id = s.storage.trials.length := by
    have h1 := congrArg Prod.fst hcreate
    simpa [Storage.create_new_trial] using h1.symm
  have hst1 : storage1 = ⟨s.storage.trials ++ [FrozenTrial.new s.storage.trials.length]⟩ := by
    have h2 := congrArg Prod.snd hcreate
    simpa [Storage.create_new_trial] using h2.symm
  refine ⟨?_, ?_, ?_⟩
  · intro e he
    constructor
    · rw [optimizeLoop]
      dsimp only
      rw [hcreate]
      dsimp only
      rw [he]
    · rw [hst1, hid]
      unfold Storage.get_trial
      exact List.getElem?_concat_length _ _
  · intro v e hv hset
    rw [optimizeLoop]
    dsimp only
    rw [hcreate]
    dsimp only
    rw [hv]
    dsimp only
    rw [hset]
  · intro v storage2 e hv hset hstate
    rw [optimizeLoop]
    dsimp only
    rw [hcreate]
    dsimp only
    rw [hv]
    dsimp only
    rw [hset]
    dsimp only
    rw [hstate]

/-- C8, witness at a concrete study and failing objective. -/
theorem c8_optimize_downgrades_failures_witness :
    study0.storage.create_new_trial = (0, runningStore) ∧
    ((∀ e, objErr (Trial.new 0 { study0 with storage := runningStore }) = Res.err e →
      optimizeLoop objErr (0 + 1) study0 []
        = optimizeLoop objErr 0 { study0 with storage := runningStore } ([] ++ [(0, e)]) ∧
      runningStore.get_trial 0 = some (FrozenTrial.new 0)) ∧
    (∀ v e, objErr (Trial.new 0 { study0 with storage := runningStore }) = Res.ok v →
      runningStore.set_trial_value 0 v = Res.err e →
      optimizeLoop objErr (0 + 1) study0 []
        = optimizeLoop objErr 0 { study0 with storage := runningStore } ([] ++ [(0, e)])) ∧
    (∀ v storage2 e,
      objErr (Trial.new 0 { study0 with storage := runningStore }) = Res.ok v →
      runningStore.set_trial_value 0 v = Res.ok storage2 →
      storage2.set_trial_state 0 TrialState.Completed = Res.err e →
      optimizeLoop objErr (0 + 1) study0 []
        = optimizeLoop objErr 0 { study0 with storage := storage2 } ([] ++ [(0, e)]))) :=
  ⟨rfl, c8_optimize_downgrades_failures objErr 0 study0 [] 0 runningStore rfl⟩

/-- C10: starting from the empty storage, through every sequence of the
public operations (create_new_trial, the three setters, whole optimize runs
with arbitrary objectives; suggest_uniform only ever touches the clone inside
a Trial handle), every stored trial remains in state Running forever, so
Completed and Failed are unreachable and get_best_trial and best_trial
return none. -/
theorem c10_trials_stay_running (s : Storage) (smp : Sampler)
    (h : ReachableStorage s) :
    (∀ t ∈ s.trials, t.state = TrialState.Running) ∧
    s.get_best_trial = none ∧ (Study.mk s smp).best_trial = none :=
  ⟨allRunning_of_reachable h,
    get_best_trial_none_of_allRunning (allRunning_of_reachable h),
    get_best_trial_none_of_allRunning (allRunning_of_reachable h)⟩

/-- C10, witness at the concrete storage reached by one create_new_trial. -/
theorem c10_trials_stay_running_witness :
    (∀ t ∈ (Storage.mk []).create_new_trial.2.trials, t.state = TrialState.Running) ∧
    (Storage.mk []).create_new_trial.2.get_best_trial = none ∧
    (Study.mk (Storage.mk []).create_new_trial.2 (Sampler.new 0)).best_trial = none :=
  c10_trials_stay_running _ _ (ReachableStorage.create _ ReachableStorage.init)

end Minituna
